import Mathlib

/-!
# stream_bmp_image: the frame-pacing and control-protocol engine of `main.go`

A shallow embedding of the package-level variables of `main.go` and of the three
activities `socketHandler` runs on them: the handling of one control message
(lines 112-131), one evaluation of the pacing clock (line 87) and one iteration of
the frame sender (lines 94-102).

Modelling conventions.

* Go `int` values are mathematical integers; `/` and `%` are Go's truncated division
  and remainder (`Int.tdiv`, `Int.tmod`).  None of the modelled operations can leave
  the 64-bit range: `sentFrame` only grows while it is below `frame`, and `frame` is
  a quotient of in-range values.
* A `time.Time` is its number of nanoseconds since the zero `Time`; `time.Since`
  saturates as `Time.Sub` documents.
* `float64` values are exact rationals plus the IEEE special values; rounding is not
  modelled.  What `strconv.ParseFloat(s, 32)` returns on an input other than a short
  whole number, and what a float-to-int conversion of an unrepresentable value
  returns (implementation-dependent in Go), are supplied by a `Platform`.
* A run-time panic or fatal error is the outcome `panicked`, carrying the variables
  as they were when the code stopped.
* `createImage` panics as `image.NewGray` does when the area of the rectangle does
  not fit `int`; whether a raster whose area fits can be allocated and encoded is a
  limit of the machine, supplied by the `Platform`, which at least holds the default
  pool that package initialisation builds.
* An encoded frame is described by what determines its bytes: the two size fields of
  the bitmap header, the length of the pixel data and the random contents.
* Each of the three activities is one atomic step; a run is an interleaving of steps.
* A transport write always succeeds.
-/

namespace StreamBmp

/-! ## strconv -/

/-- The two error kinds of `strconv.NumError`. -/
inductive NumError where
  | ErrSyntax
  | ErrRange
  deriving DecidableEq, Repr

/-- Value of a string of decimal digits, most significant first; `none` when a
character is not a decimal digit. -/
def digitsValue : List Char → Nat → Option Nat
  | [], acc => some acc
  | c :: cs, acc =>
    if '0' ≤ c ∧ c ≤ '9' then digitsValue cs (acc * 10 + (c.toNat - 48)) else none

/-- Splits an optional leading sign off: `(negative, rest)`. -/
def splitSign : List Char → Bool × List Char
  | '-' :: cs => (true, cs)
  | '+' :: cs => (false, cs)
  | cs => (false, cs)

/-- The largest `int` (64 bits). -/
def maxInt : Int := 9223372036854775807

/-- The smallest `int` (64 bits). -/
def minInt : Int := -9223372036854775808

/-- `strconv.Atoi`: an optional sign followed by one or more decimal digits.  A
syntax error returns 0; a value outside `int` returns the nearest bound with a range
error. -/
def Atoi (s : String) : Int × Option NumError :=
  match splitSign s.data with
  | (_, []) => (0, some .ErrSyntax)
  | (neg, body) =>
    match digitsValue body 0 with
    | none => (0, some .ErrSyntax)
    | some n =>
      if neg then
        if (n : Int) ≤ 9223372036854775808 then (-(n : Int), none) else (minInt, some .ErrRange)
      else
        if (n : Int) ≤ maxInt then ((n : Int), none) else (maxInt, some .ErrRange)

/-! ## float64 -/

/-- A `float64` value in exact arithmetic. -/
inductive F64 where
  | finite (q : ℚ)
  | negZero
  | posInf
  | negInf
  | nan
  deriving DecidableEq

/-- The parts of the Go implementation the model does not compute. -/
structure Platform where
  /-- Result of `strconv.ParseFloat(s, 32)` on an input that is not a signed whole
  number of magnitude at most 2^24. -/
  parseFloatOther : String → F64 × Option NumError
  /-- Result of `int(f)` when `f` is infinite, NaN or outside the range of `int`. -/
  convUnrepresentable : F64 → Int
  /-- The largest number of pixels of a raster that the machine allocates and
  encodes; for a larger one `createImage` does not return. -/
  rasterLimit : Int
  /-- The program runs only once package initialisation has built the default pool
  of 1024 x 1024 rasters. -/
  holdsDefault : 1048576 ≤ rasterLimit

/-- `strconv.ParseFloat(s, 32)`.  A signed whole number of magnitude at most
2^24 = 16777216 is a `float32` exactly and is returned as itself; every other input
is answered by the platform. -/
def ParseFloat (p : Platform) (s : String) : F64 × Option NumError :=
  match splitSign s.data with
  | (_, []) => p.parseFloatOther s
  | (neg, body) =>
    match digitsValue body 0 with
    | none => p.parseFloatOther s
    | some n =>
      if n ≤ 16777216 then
        if neg then
          if n = 0 then (.negZero, none) else (.finite (-(n : ℚ)), none)
        else (.finite (n : ℚ), none)
      else p.parseFloatOther s

/-- The `float64` quotient `1000000 / fps` of lines 21 and 122. -/
def millionOver : F64 → F64
  | .finite q => if q = 0 then .posInf else .finite (1000000 / q)
  | .negZero => .negInf
  | .posInf => .finite 0
  | .negInf => .negZero
  | .nan => .nan

/-- The conversion `int(f)`: truncation toward zero when the result is an `int`. -/
def toInt (p : Platform) : F64 → Int
  | .finite q =>
    if minInt ≤ Int.tdiv q.num q.den ∧ Int.tdiv q.num q.den ≤ maxInt then Int.tdiv q.num q.den
    else p.convUnrepresentable (.finite q)
  | .negZero => 0
  | f => p.convUnrepresentable f

/-! ## strings -/

/-- `strings.Split(s, ",")` on the characters of `s`. -/
def splitComma : List Char → List (List Char)
  | [] => [[]]
  | c :: cs =>
    if c = ',' then [] :: splitComma cs
    else
      match splitComma cs with
      | [] => [[c]]
      | f :: fs => (c :: f) :: fs

/-- `strings.Split(event, ",")`. -/
def Split (event : String) : List String :=
  (splitComma event.data).map String.mk

/-- `strings.Contains(event, ",")`. -/
def containsComma (event : String) : Bool :=
  event.data.contains ','

/-! ## Package-level variables -/

/-- An encoded frame as `createImage` returns it, described by what determines its
bytes: the header fields `uint32(Dx)` and `uint32(Dy)`, the number of bytes of pixel
data (rows of 8-bit pixels padded to four bytes; none for an empty rectangle) and the
pixel contents.  `noise` is `none` when every pixel is zero because no pixel was
drawn, and `some k` for random pixels, `k` telling the draws apart: it is the
ordinal of the drawing call. -/
structure Image where
  width : Int
  height : Int
  pixelBytes : Int
  noise : Option Nat
  deriving DecidableEq, Repr

/-- The package-level variables of `main.go` (lines 19-31), with the position of the
global random source (`drawn`: how many rasters have been drawn from it). -/
structure Session where
  fps : F64
  interval : Int
  width : Int
  height : Int
  frame : Int
  sentFrame : Int
  images : List Image
  openSocket : Bool
  start : Int
  drawn : Nat
  deriving DecidableEq

/-- Result of running a piece of code on the variables. -/
inductive Outcome where
  | done (s : Session)
  | panicked (s : Session)
  deriving DecidableEq

/-- The variables an outcome leaves behind. -/
def Outcome.vars : Outcome → Session
  | .done s => s
  | .panicked s => s

/-- Conversion of an integer to the 64-bit `int` by wrap-around. -/
def wrapInt (x : Int) : Int :=
  (x + 9223372036854775808) % 18446744073709551616 - 9223372036854775808

/-- The extent `Dx` (or `Dy`) of `image.Rect(0, 0, x1, y1)` in one direction:
`image.Rect` swaps the two coordinates when the second is the smaller one, and the
extent is `Max - Min` in `int` arithmetic. -/
def rectSpan (x1 : Int) : Int :=
  if 0 > x1 then wrapInt (0 - x1) else wrapInt (x1 - 0)

/-- The helper `mul3NonNeg` of package `image`: the product of three `int`s, or -1
when an argument is negative or the product does not fit `int`. -/
def mul3NonNeg (x y z : Int) : Int :=
  if x < 0 ∨ y < 0 ∨ z < 0 then -1
  else if 18446744073709551615 < x * y then -1
  else if 18446744073709551615 < x * y * z then -1
  else if maxInt < x * y * z then -1
  else x * y * z

/-- The bytes `bmp.Encode` writes for a gray raster of extent `dx` x `dy`, as an
`Image`. -/
def encodeGray (dx dy : Int) (noise : Option Nat) : Image :=
  { width := dx % 4294967296
    height := dy % 4294967296
    pixelBytes := if dx = 0 ∨ dy = 0 then 0 else dy * ((dx + 3) / 4 * 4)
    noise := noise }

/-- `createImage(i)` (lines 135-154); `none` when the call does not return.
`image.NewGray` panics when `mul3NonNeg` refuses the area and the allocation fails
beyond the limit of the machine (line 136); the loops draw one random value for
each pixel with `0 ≤ x < width` and `0 ≤ y < height` (lines 139-145); `bmp.Encode`
reports an error, and `log.Fatalf` ends the process, for a negative extent (lines
148-150).  The argument `i` is not used by the source. -/
def createImage (p : Platform) (s : Session) (_i : Int) : Option (Image × Session) :=
  if mul3NonNeg 1 (rectSpan s.width) (rectSpan s.height) < 0 then none
  else if p.rasterLimit < rectSpan s.width * rectSpan s.height then none
  else if rectSpan s.width < 0 ∨ rectSpan s.height < 0 then none
  else if 0 < s.width ∧ 0 < s.height then
    some (encodeGray (rectSpan s.width) (rectSpan s.height) (some s.drawn),
      { s with drawn := s.drawn + 1 })
  else some (encodeGray (rectSpan s.width) (rectSpan s.height) none, s)

/-- The calls `createImage(i)` for the `i` of a list, in order; it stops at the first
call that does not return. -/
def createImages (p : Platform) : Session → List Int → Option (List Image) × Session
  | s, [] => (some [], s)
  | s, i :: rest =>
    match createImage p s i with
    | none => (none, s)
    | some (img, s1) =>
      match createImages p s1 rest with
      | (none, s2) => (none, s2)
      | (some imgs, s2) => (some (img :: imgs), s2)

/-- The slice literal `[][]byte{createImage(0), ..., createImage(4)}` of lines 28
and 121, assigned to `images` once the five calls have returned. -/
def regenerate (p : Platform) (s : Session) : Outcome :=
  match createImages p s [0, 1, 2, 3, 4] with
  | (none, s1) => .panicked s1
  | (some imgs, s1) => .done { s1 with images := imgs }

/-- The variables after package initialisation (lines 19-31). -/
def init (p : Platform) : Session :=
  (regenerate p
    { fps := .finite 60
      interval := toInt p (millionOver (.finite 60))
      width := 1024
      height := 1024
      frame := 0
      sentFrame := 0
      images := []
      openSocket := false
      start := 0
      drawn := 0 }).vars

/-! ## time -/

/-- The largest `time.Duration`, in nanoseconds. -/
def maxDuration : Int := 9223372036854775807

/-- The smallest `time.Duration`, in nanoseconds. -/
def minDuration : Int := -9223372036854775808

/-- `time.Since(start)` at the instant `now`, in nanoseconds: `now.Sub(start)`,
which saturates at the bounds of `Duration`. -/
def Since (now start : Int) : Int :=
  if now - start > maxDuration then maxDuration
  else if now - start < minDuration then minDuration
  else now - start

/-- `Duration.Microseconds`. -/
def Microseconds (d : Int) : Int :=
  Int.tdiv d 1000

/-! ## The three activities -/

/-- One message taken from `eventCh` (lines 112-131), received at the instant `now`. -/
def handleEvent (p : Platform) (now : Int) (s : Session) (event : String) : Outcome :=
  if containsComma event then
    match Split event with
    | [] => .panicked s
    | o0 :: rest =>
      let s1 := { s with width := (Atoi o0).1 }
      match rest with
      | [] => .panicked s1
      | o1 :: rest =>
        let s2 := { s1 with height := (Atoi o1).1 }
        match rest with
        | [] => .panicked s2
        | o2 :: _ =>
          let s3 := { s2 with fps := (ParseFloat p o2).1 }
          match regenerate p s3 with
          | .panicked s4 => .panicked s4
          | .done s4 => .done { s4 with interval := toInt p (millionOver s4.fps) }
  else if event = "start" then
    .done { s with openSocket := true, start := now, sentFrame := 0 }
  else if event = "quit" then
    .done { s with openSocket := false, sentFrame := 0 }
  else .done s

/-- One evaluation of the pacing clock (line 87) at the instant `now`; an integer
division by zero panics. -/
def pace (now : Int) (s : Session) : Outcome :=
  if s.interval = 0 then .panicked s
  else .done { s with frame := Int.tdiv (Microseconds (Since now s.start)) s.interval }

/-- A frame written to the connection (line 96): the value of `sentFrame` at the
write, the pool slot `sentFrame % 5` and the payload found there. -/
structure Sent where
  index : Int
  slot : Int
  payload : Image
  deriving DecidableEq, Repr

/-- One iteration of the sender loop (lines 94-102); an index outside `images`
panics. -/
def senderStep (s : Session) : Outcome × List Sent :=
  if s.sentFrame < s.frame then
    let s1 := { s with sentFrame := s.sentFrame + 1 }
    let i := Int.tmod s1.sentFrame 5
    if 0 ≤ i then
      match s1.images[i.toNat]? with
      | some img => (.done s1, [⟨s1.sentFrame, i, img⟩])
      | none => (.panicked s1, [])
    else (.panicked s1, [])
  else (.done s, [])

/-- The sender loop run until `sentFrame` is no longer below `frame`, for at most
`fuel` iterations. -/
def catchUp : Nat → Session → Outcome × List Sent
  | 0, s => (.done s, [])
  | fuel + 1, s =>
    if s.sentFrame < s.frame then
      match senderStep s with
      | (.done s1, out) => ((catchUp fuel s1).1, out ++ (catchUp fuel s1).2)
      | (.panicked s1, out) => (.panicked s1, out)
    else (.done s, [])

/-- A step of one of the three activities. -/
inductive Step where
  | event (now : Int) (text : String)
  | pace (now : Int)
  | send
  deriving DecidableEq

/-- Effect of one step. -/
def step (p : Platform) (s : Session) : Step → Outcome × List Sent
  | .event now text => (handleEvent p now s text, [])
  | .pace now => (pace now s, [])
  | .send => senderStep s

/-- An interleaving of steps, with the frames written; it ends at the first panic. -/
def run (p : Platform) : Session → List Step → Outcome × List Sent
  | s, [] => (.done s, [])
  | s, st :: rest =>
    match step p s st with
    | (.done s1, out) => ((run p s1 rest).1, out ++ (run p s1 rest).2)
    | (.panicked s1, out) => (.panicked s1, out)

/-! ## Auxiliary definitions for the statements -/

/-- A platform on which the model can be evaluated: it reports every input it is
asked about as a syntax error, converts as the amd64 instruction does and holds
rasters of up to 2^30 pixels. -/
def samplePlatform : Platform :=
  ⟨fun _ => (.finite 0, some .ErrSyntax), fun _ => minInt, 1073741824, by decide⟩

/-- Whether `createImage` returns under the geometry `w` x `h`: the area of the
rectangle fits `int` and the machine holds the raster. -/
def rasterFits (p : Platform) (w h : Int) : Bool :=
  decide (0 ≤ mul3NonNeg 1 (rectSpan w) (rectSpan h) ∧
    rectSpan w * rectSpan h ≤ p.rasterLimit)

/-- The pool `regenerate` builds under the geometry `w` x `h` when `d` rasters have
been drawn before: five rasters with fresh random contents when the geometry has
pixels to draw, five times the same raster otherwise. -/
def poolOf (w h : Int) (d : Nat) : List Image :=
  if 0 < w ∧ 0 < h then
    [encodeGray (rectSpan w) (rectSpan h) (some d),
      encodeGray (rectSpan w) (rectSpan h) (some (d + 1)),
      encodeGray (rectSpan w) (rectSpan h) (some (d + 2)),
      encodeGray (rectSpan w) (rectSpan h) (some (d + 3)),
      encodeGray (rectSpan w) (rectSpan h) (some (d + 4))]
  else List.replicate 5 (encodeGray (rectSpan w) (rectSpan h) none)

/-- The position of the random source after `regenerate` under the geometry
`w` x `h`. -/
def drawnAfter (w h : Int) (d : Nat) : Nat :=
  if 0 < w ∧ 0 < h then d + 5 else d

/-- Whether a step handles a `"start"` or a `"quit"`: the steps that end a playback
epoch. -/
def Step.endsEpoch : Step → Bool
  | .event _ text => text = "start" || text = "quit"
  | _ => false

/-- Whether a step handles a control message. -/
def Step.isEvent : Step → Bool
  | .event _ _ => true
  | _ => false

/-- The `k` consecutive integers that follow `n`: `n + 1, ..., n + k`. -/
def countFrom (n : Int) (k : Nat) : List Int :=
  (List.range k).map (fun (j : Nat) => n + 1 + (j : Int))

/-- The spec's `floor(E / I)`: the floor of the exact quotient. -/
def floorDiv (E I : Int) : Int :=
  ⌊(E : ℚ) / (I : ℚ)⌋

/-- The spec's target index, `floor(elapsedMicroseconds(now - start) / I)`, with the
elapsed time as `time.Since` measures it. -/
def specTarget (I start now : Int) : Int :=
  floorDiv (Microseconds (Since now start)) I

/-! ## Lemmas: conversions and message handling -/

lemma toInt_finite_pos (p : Platform) (r : ℚ) (h0 : 0 ≤ r) (hmax : ⌊r⌋ ≤ maxInt) :
    toInt p (.finite r) = ⌊r⌋ := by
  have hnum : 0 ≤ r.num := Rat.num_nonneg.mpr h0
  have hdiv : Int.tdiv r.num (r.den : Int) = ⌊r⌋ := by
    rw [Int.tdiv_eq_ediv hnum (by positivity), Rat.floor_def]
  have hfl : 0 ≤ ⌊r⌋ := Int.floor_nonneg.mpr h0
  simp only [toInt, hdiv]
  rw [if_pos]
  exact ⟨by unfold minInt; omega, hmax⟩

lemma interval_sixty (p : Platform) : toInt p (millionOver (.finite 60)) = 16666 := by
  have h : millionOver (.finite 60) = .finite (50000 / 3) := by
    simp only [millionOver]; norm_num
  have hfl : ⌊(50000 / 3 : ℚ)⌋ = 16666 := by rw [Int.floor_eq_iff]; norm_num
  rw [h, toInt_finite_pos p _ (by norm_num) (by rw [hfl]; decide), hfl]

lemma interval_thirty (p : Platform) : toInt p (millionOver (.finite 30)) = 33333 := by
  have h : millionOver (.finite 30) = .finite (100000 / 3) := by
    simp only [millionOver]; norm_num
  have hfl : ⌊(100000 / 3 : ℚ)⌋ = 33333 := by rw [Int.floor_eq_iff]; norm_num
  rw [h, toInt_finite_pos p _ (by norm_num) (by rw [hfl]; decide), hfl]

lemma rectSpan_of_nonneg (w : Int) (h0 : 0 ≤ w) (h1 : w ≤ maxInt) : rectSpan w = w := by
  unfold maxInt at h1
  unfold rectSpan wrapInt
  rw [if_neg (by omega)]
  omega

/-- `mul3NonNeg 1 dx dy` accepts exactly the non-negative extents whose product fits
`int`. -/
lemma mul3NonNeg_nonneg_iff (dx dy : Int) (hx : dx ≤ maxInt) :
    0 ≤ mul3NonNeg 1 dx dy ↔ 0 ≤ dx ∧ 0 ≤ dy ∧ dx * dy ≤ maxInt := by
  unfold maxInt at hx
  unfold mul3NonNeg maxInt
  constructor
  · intro h
    split_ifs at h with h1 h2 h3 h4
    · omega
    · omega
    · omega
    · omega
    · simp only [one_mul] at h1 h2 h3 h4 ⊢
      omega
  · rintro ⟨h1, h2, h3⟩
    have hprod : 0 ≤ dx * dy := mul_nonneg h1 h2
    rw [if_neg (by omega), if_neg (by simp only [one_mul]; omega),
      if_neg (by simp only [one_mul]; omega), if_neg (by simp only [one_mul]; omega)]
    simpa using hprod

lemma rectSpan_le (w : Int) : rectSpan w ≤ maxInt := by
  unfold rectSpan wrapInt maxInt
  split_ifs <;> omega

/-- A geometry of non-negative `int`s fits when its area fits `int` and the machine. -/
lemma rasterFits_of_nonneg (p : Platform) (w h : Int) (hw : 0 ≤ w) (hw1 : w ≤ maxInt)
    (hh : 0 ≤ h) (hh1 : h ≤ maxInt) (harea : w * h ≤ maxInt) (hlim : w * h ≤ p.rasterLimit) :
    rasterFits p w h = true := by
  simp only [rasterFits, decide_eq_true_eq, rectSpan_of_nonneg w hw hw1,
    rectSpan_of_nonneg h hh hh1]
  exact ⟨(mul3NonNeg_nonneg_iff w h hw1).mpr ⟨hw, hh, harea⟩, hlim⟩

/-- A geometry of non-negative `int`s whose area does not fit `int` does not fit. -/
lemma rasterFits_of_overflow (p : Platform) (w h : Int) (hw : 0 ≤ w) (hw1 : w ≤ maxInt)
    (hh : 0 ≤ h) (hh1 : h ≤ maxInt) (harea : maxInt < w * h) : rasterFits p w h = false := by
  simp only [rasterFits, decide_eq_false_iff_not, rectSpan_of_nonneg w hw hw1,
    rectSpan_of_nonneg h hh hh1, not_and]
  intro hm
  have := (mul3NonNeg_nonneg_iff w h hw1).mp hm
  omega

lemma createImage_of_fits (p : Platform) (s : Session) (i : Int)
    (h : rasterFits p s.width s.height = true) :
    createImage p s i =
      if 0 < s.width ∧ 0 < s.height then
        some (encodeGray (rectSpan s.width) (rectSpan s.height) (some s.drawn),
          { s with drawn := s.drawn + 1 })
      else some (encodeGray (rectSpan s.width) (rectSpan s.height) none, s) := by
  simp only [rasterFits, decide_eq_true_eq] at h
  obtain ⟨hm, hl⟩ := h
  obtain ⟨hx, hy, -⟩ := (mul3NonNeg_nonneg_iff _ _ (rectSpan_le s.width)).mp hm
  unfold createImage
  rw [if_neg (by omega), if_neg (by omega), if_neg (by omega)]

lemma createImage_of_not_fits (p : Platform) (s : Session) (i : Int)
    (h : rasterFits p s.width s.height = false) : createImage p s i = none := by
  simp only [rasterFits, decide_eq_false_iff_not, not_and, not_le] at h
  unfold createImage
  by_cases hm : mul3NonNeg 1 (rectSpan s.width) (rectSpan s.height) < 0
  · rw [if_pos hm]
  · rw [if_neg hm, if_pos (h (by omega))]

/-- When `createImage` returns, `regenerate` completes with the pool `poolOf`. -/
lemma regenerate_of_fits (p : Platform) (s : Session)
    (h : rasterFits p s.width s.height = true) :
    regenerate p s = .done
      { s with
        images := poolOf s.width s.height s.drawn
        drawn := drawnAfter s.width s.height s.drawn } := by
  by_cases hpos : 0 < s.width ∧ 0 < s.height
  · have hc : ∀ (d : Nat) (i : Int), createImage p { s with drawn := d } i =
        some (encodeGray (rectSpan s.width) (rectSpan s.height) (some d),
          { s with drawn := d + 1 }) := by
      intro d i
      have h2 : rasterFits p ({ s with drawn := d } : Session).width
          ({ s with drawn := d } : Session).height = true := h
      have h3 := createImage_of_fits p { s with drawn := d } i h2
      rw [h3]
      exact if_pos hpos
    have e0 : createImage p s 0 =
        some (encodeGray (rectSpan s.width) (rectSpan s.height) (some s.drawn),
          { s with drawn := s.drawn + 1 }) := hc s.drawn 0
    unfold regenerate
    simp only [createImages, e0, hc, poolOf, drawnAfter, if_pos hpos]
  · have e0 : ∀ (i : Int), createImage p s i =
        some (encodeGray (rectSpan s.width) (rectSpan s.height) none, s) := by
      intro i
      have h3 := createImage_of_fits p s i h
      rw [h3]
      exact if_neg hpos
    unfold regenerate
    simp only [createImages, e0, poolOf, drawnAfter, if_neg hpos, List.replicate]

/-- When `createImage` does not return, `regenerate` stops with nothing changed. -/
lemma regenerate_of_not_fits (p : Platform) (s : Session)
    (h : rasterFits p s.width s.height = false) : regenerate p s = .panicked s := by
  unfold regenerate
  simp only [createImages, createImage_of_not_fits p s _ h]

lemma poolOf_length (w h : Int) (d : Nat) : (poolOf w h d).length = 5 := by
  unfold poolOf
  split_ifs <;> simp

/-- The two outcomes of `regenerate`. -/
lemma regenerate_cases (p : Platform) (s : Session) :
    regenerate p s = .done
      { s with
        images := poolOf s.width s.height s.drawn
        drawn := drawnAfter s.width s.height s.drawn } ∨
    regenerate p s = .panicked s := by
  cases h : rasterFits p s.width s.height with
  | true => left; exact regenerate_of_fits p s h
  | false => right; exact regenerate_of_not_fits p s h

/-- The initial variables, evaluated. -/
lemma init_eq (p : Platform) : init p =
    { fps := .finite 60, interval := 16666, width := 1024, height := 1024, frame := 0,
      sentFrame := 0,
      images := [⟨1024, 1024, 1048576, some 0⟩, ⟨1024, 1024, 1048576, some 1⟩,
        ⟨1024, 1024, 1048576, some 2⟩, ⟨1024, 1024, 1048576, some 3⟩,
        ⟨1024, 1024, 1048576, some 4⟩],
      openSocket := false, start := 0, drawn := 5 } := by
  have hfit : rasterFits p 1024 1024 = true :=
    rasterFits_of_nonneg p 1024 1024 (by norm_num) (by norm_num [maxInt]) (by norm_num)
      (by norm_num [maxInt]) (by norm_num [maxInt]) (by have := p.holdsDefault; omega)
  unfold init
  rw [interval_sixty]
  have hreg := regenerate_of_fits p
    { fps := .finite 60, interval := 16666, width := 1024, height := 1024, frame := 0,
      sentFrame := 0, images := [], openSocket := false, start := 0, drawn := 0 } hfit
  rw [hreg]
  simp only [Outcome.vars, poolOf, drawnAfter]
  have hspan : rectSpan 1024 = 1024 := by decide
  have henc : ∀ n, encodeGray 1024 1024 n = ⟨1024, 1024, 1048576, n⟩ := by
    intro n
    simp [encodeGray]
  simp [hspan, henc]

lemma splitComma_of_not_mem (cs : List Char) (h : ',' ∉ cs) : splitComma cs = [cs] := by
  induction cs with
  | nil => rfl
  | cons c cs ih =>
    have hc : c ≠ ',' := fun e => h (by simp [e])
    have hcs : ',' ∉ cs := fun e => h (by simp [e])
    simp [splitComma, hc, ih hcs]

lemma Split_of_containsComma_false (event : String) (h : containsComma event = false) :
    Split event = [event] := by
  have hmem : ',' ∉ event.data := by
    simpa [containsComma] using h
  simp [Split, splitComma_of_not_mem _ hmem]

lemma containsComma_of_fields (event w h f : String) (rest : List String)
    (hs : Split event = w :: h :: f :: rest) : containsComma event = true := by
  by_contra hc
  have := Split_of_containsComma_false event (by simpa using hc)
  rw [this] at hs
  simp at hs

/-- What the handler does with a message of three or more fields when `createImage`
returns for the geometry the first two fields give. -/
lemma handleEvent_three (p : Platform) (now : Int) (s : Session) (event w h f : String)
    (rest : List String) (hs : Split event = w :: h :: f :: rest)
    (hfit : rasterFits p (Atoi w).1 (Atoi h).1 = true) :
    handleEvent p now s event = .done
      { s with
        width := (Atoi w).1
        height := (Atoi h).1
        fps := (ParseFloat p f).1
        interval := toInt p (millionOver (ParseFloat p f).1)
        images := poolOf (Atoi w).1 (Atoi h).1 s.drawn
        drawn := drawnAfter (Atoi w).1 (Atoi h).1 s.drawn } := by
  have hr := regenerate_of_fits p
    { s with width := (Atoi w).1, height := (Atoi h).1, fps := (ParseFloat p f).1 } hfit
  simp only [handleEvent, containsComma_of_fields event w h f rest hs, hs, if_true, hr]

/-- What the handler does with a message of three or more fields when `createImage`
does not return: it stops after the three assignments, before the pool and the
interval are replaced. -/
lemma handleEvent_three_panic (p : Platform) (now : Int) (s : Session)
    (event w h f : String) (rest : List String) (hs : Split event = w :: h :: f :: rest)
    (hfit : rasterFits p (Atoi w).1 (Atoi h).1 = false) :
    handleEvent p now s event = .panicked
      { s with
        width := (Atoi w).1
        height := (Atoi h).1
        fps := (ParseFloat p f).1 } := by
  have hr := regenerate_of_not_fits p
    { s with width := (Atoi w).1, height := (Atoi h).1, fps := (ParseFloat p f).1 } hfit
  simp only [handleEvent, containsComma_of_fields event w h f rest hs, hs, if_true, hr]

/-- The three assignments of a message of three or more fields, whether or not the
handler completes. -/
lemma handleEvent_three_vars (p : Platform) (now : Int) (s : Session)
    (event w h f : String) (rest : List String) (hs : Split event = w :: h :: f :: rest) :
    (handleEvent p now s event).vars.width = (Atoi w).1 ∧
    (handleEvent p now s event).vars.height = (Atoi h).1 ∧
    (handleEvent p now s event).vars.fps = (ParseFloat p f).1 := by
  cases hfit : rasterFits p (Atoi w).1 (Atoi h).1 with
  | true =>
    rw [handleEvent_three p now s event w h f rest hs hfit]
    exact ⟨rfl, rfl, rfl⟩
  | false =>
    rw [handleEvent_three_panic p now s event w h f rest hs hfit]
    exact ⟨rfl, rfl, rfl⟩

/-- What `strconv.Atoi` returns is an `int`. -/
lemma Atoi_range (w : String) : minInt ≤ (Atoi w).1 ∧ (Atoi w).1 ≤ maxInt := by
  unfold Atoi
  rcases splitSign w.data with ⟨neg, body⟩
  cases body with
  | nil => simp [minInt, maxInt]
  | cons c cs =>
    simp only []
    cases digitsValue (c :: cs) 0 with
    | none => simp [minInt, maxInt]
    | some n =>
      simp only []
      unfold minInt maxInt
      split_ifs <;> simp only [] <;> omega

lemma splitSign_digit (c : Char) (rest : List Char) (h : '0' ≤ c ∧ c ≤ '9') :
    splitSign (c :: rest) = (false, c :: rest) := by
  have h1 : c ≠ '-' := by
    rintro rfl
    exact absurd h.1 (by decide)
  have h2 : c ≠ '+' := by
    rintro rfl
    exact absurd h.1 (by decide)
  unfold splitSign
  split
  · rename_i heq; simp at heq; exact absurd heq.1 h1
  · rename_i heq; simp at heq; exact absurd heq.1 h2
  · rfl

/-- A non-empty string of decimal digits whose value fits `int` is parsed by
`strconv.Atoi` to that value, without an error. -/
lemma Atoi_of_decimal (cs : List Char) (n : Nat) (hne : cs ≠ [])
    (hv : digitsValue cs 0 = some n) (hn : (n : Int) ≤ maxInt) :
    Atoi ⟨cs⟩ = ((n : Int), none) := by
  cases cs with
  | nil => exact absurd rfl hne
  | cons c rest =>
    have hd : '0' ≤ c ∧ c ≤ '9' := by
      by_contra hcon
      simp [digitsValue, hcon] at hv
    simp only [Atoi, splitSign_digit c rest hd, hv]
    simp [hn]

/-- A non-empty string of decimal digits of value at most 2^24 is parsed by
`strconv.ParseFloat` to that value, without an error, on every platform. -/
lemma ParseFloat_of_whole (p : Platform) (cs : List Char) (n : Nat) (hne : cs ≠ [])
    (hv : digitsValue cs 0 = some n) (hn : n ≤ 16777216) :
    ParseFloat p ⟨cs⟩ = (.finite (n : ℚ), none) := by
  cases cs with
  | nil => exact absurd rfl hne
  | cons c rest =>
    have hd : '0' ≤ c ∧ c ≤ '9' := by
      by_contra hcon
      simp [digitsValue, hcon] at hv
    simp only [ParseFloat, splitSign_digit c rest hd, hv]
    simp [hn]

/-- For a whole rate of at least 1 the quotient `1000000 / rate` is within `int`. -/
lemma whole_rate_in_range (n : Nat) (hn : 1 ≤ n) : ⌊(1000000 : ℚ) / (n : ℚ)⌋ ≤ maxInt := by
  have h1 : (1 : ℚ) ≤ (n : ℚ) := by exact_mod_cast hn
  have h2 : (1000000 : ℚ) / (n : ℚ) ≤ 1000000 := by
    rw [div_le_iff₀ (by linarith)]
    nlinarith
  have h3 : ⌊(1000000 : ℚ) / (n : ℚ)⌋ ≤ 1000000 := by
    have := Int.floor_le ((1000000 : ℚ) / (n : ℚ))
    have h4 : ((⌊(1000000 : ℚ) / (n : ℚ)⌋ : Int) : ℚ) ≤ ((1000000 : Int) : ℚ) := by
      push_cast; linarith
    exact_mod_cast h4
  unfold maxInt
  omega

lemma start_done (p : Platform) (t0 : Int) (s : Session) :
    handleEvent p t0 s "start" =
      .done { s with openSocket := true, start := t0, sentFrame := 0 } := by
  simp [handleEvent, containsComma]

lemma quit_done (p : Platform) (t0 : Int) (s : Session) :
    handleEvent p t0 s "quit" = .done { s with openSocket := false, sentFrame := 0 } := by
  simp [handleEvent, containsComma]

/-- The default geometry, and every geometry of at most as many pixels, fits on
every platform. -/
lemma rasterFits_small (p : Platform) (w h : Int) (hw : 0 ≤ w) (hw1 : w ≤ 1048576)
    (hh : 0 ≤ h) (hh1 : h ≤ 1048576) (harea : w * h ≤ 1048576) :
    rasterFits p w h = true := by
  have := p.holdsDefault
  exact rasterFits_of_nonneg p w h hw (by unfold maxInt; omega) hh (by unfold maxInt; omega)
    (by unfold maxInt; omega) (by omega)

lemma poolOf_default (d : Nat) : poolOf 1024 1024 d =
    [⟨1024, 1024, 1048576, some d⟩, ⟨1024, 1024, 1048576, some (d + 1)⟩,
      ⟨1024, 1024, 1048576, some (d + 2)⟩, ⟨1024, 1024, 1048576, some (d + 3)⟩,
      ⟨1024, 1024, 1048576, some (d + 4)⟩] := by
  have hspan : rectSpan 1024 = 1024 := by decide
  have henc : ∀ n, encodeGray 1024 1024 n = ⟨1024, 1024, 1048576, n⟩ := by
    intro n
    simp [encodeGray]
  simp [poolOf, hspan, henc]

lemma resize_thirty (p : Platform) (now : Int) (s : Session) :
    handleEvent p now s "1024,1024,30" = .done
      { s with
        width := 1024
        height := 1024
        fps := .finite 30
        interval := 33333
        images := [⟨1024, 1024, 1048576, some s.drawn⟩,
          ⟨1024, 1024, 1048576, some (s.drawn + 1)⟩, ⟨1024, 1024, 1048576, some (s.drawn + 2)⟩,
          ⟨1024, 1024, 1048576, some (s.drawn + 3)⟩, ⟨1024, 1024, 1048576, some (s.drawn + 4)⟩]
        drawn := s.drawn + 5 } := by
  have hF : ParseFloat p "30" = (.finite 30, none) := by
    simp [ParseFloat, splitSign, digitsValue]
  have hA : Atoi "1024" = (1024, none) := by decide
  have hfit : rasterFits p (Atoi "1024").1 (Atoi "1024").1 = true := by
    rw [hA]
    exact rasterFits_small p 1024 1024 (by norm_num) (by norm_num) (by norm_num)
      (by norm_num) (by norm_num)
  rw [handleEvent_three p now s _ "1024" "1024" "30" [] (by decide) hfit, hF, hA]
  simp only [interval_thirty, poolOf_default, drawnAfter]
  simp

lemma resize_sixty (p : Platform) (now : Int) (s : Session) :
    (handleEvent p now s "1024,1024,60").vars.interval = 16666 := by
  have hF : ParseFloat p "60" = (.finite 60, none) := by
    simp [ParseFloat, splitSign, digitsValue]
  have hA : Atoi "1024" = (1024, none) := by decide
  have hfit : rasterFits p (Atoi "1024").1 (Atoi "1024").1 = true := by
    rw [hA]
    exact rasterFits_small p 1024 1024 (by norm_num) (by norm_num) (by norm_num)
      (by norm_num) (by norm_num)
  rw [handleEvent_three p now s _ "1024" "1024" "60" [] (by decide) hfit, hF]
  simp only [Outcome.vars, interval_sixty]

/-- What `regenerate` leaves of the variables other than the pool and the random
source. -/
lemma regenerate_vars (p : Platform) (s : Session) :
    (regenerate p s).vars.frame = s.frame ∧ (regenerate p s).vars.sentFrame = s.sentFrame ∧
    (regenerate p s).vars.openSocket = s.openSocket ∧ (regenerate p s).vars.start = s.start ∧
    ((regenerate p s).vars.images = s.images ∨ (regenerate p s).vars.images.length = 5) := by
  rcases regenerate_cases p s with h | h
  · rw [h]
    exact ⟨rfl, rfl, rfl, rfl, Or.inr (poolOf_length _ _ _)⟩
  · rw [h]
    exact ⟨rfl, rfl, rfl, rfl, Or.inl rfl⟩

/-- A message changes neither `frame`, `start` after anything but a `"start"`, nor,
unless it resets it to 0, `sentFrame`; the pool stays or becomes a pool of five. -/
lemma handleEvent_effect (p : Platform) (now : Int) (s : Session) (event : String) :
    (handleEvent p now s event).vars.frame = s.frame ∧
    ((handleEvent p now s event).vars.sentFrame = s.sentFrame ∨
      (handleEvent p now s event).vars.sentFrame = 0) ∧
    ((handleEvent p now s event).vars.images = s.images ∨
      (handleEvent p now s event).vars.images.length = 5) ∧
    (event ≠ "start" → event ≠ "quit" →
      (handleEvent p now s event).vars.sentFrame = s.sentFrame) := by
  by_cases hc : containsComma event = true
  · rcases hsp : Split event with _ | ⟨o0, _ | ⟨o1, _ | ⟨o2, rest⟩⟩⟩
    · simp [handleEvent, hc, hsp, Outcome.vars]
    · simp [handleEvent, hc, hsp, Outcome.vars]
    · simp [handleEvent, hc, hsp, Outcome.vars]
    · cases hfit : rasterFits p (Atoi o0).1 (Atoi o1).1 with
      | true =>
        rw [handleEvent_three p now s event o0 o1 o2 rest hsp hfit]
        simp [Outcome.vars, poolOf_length]
      | false =>
        rw [handleEvent_three_panic p now s event o0 o1 o2 rest hsp hfit]
        simp [Outcome.vars]
  · by_cases hst : event = "start"
    · subst hst
      rw [start_done]
      simp [Outcome.vars]
    · by_cases hq : event = "quit"
      · subst hq
        rw [quit_done]
        simp [Outcome.vars]
      · simp [handleEvent, hc, hst, hq, Outcome.vars]

lemma handleEvent_counters (p : Platform) (now : Int) (s : Session) (event : String) :
    (handleEvent p now s event).vars.frame = s.frame ∧
    ((handleEvent p now s event).vars.sentFrame = s.sentFrame ∨
      (handleEvent p now s event).vars.sentFrame = 0) :=
  ⟨(handleEvent_effect p now s event).1, (handleEvent_effect p now s event).2.1⟩

lemma handleEvent_sentFrame (p : Platform) (now : Int) (s s1 : Session) (text : String)
    (h1 : text ≠ "start") (h2 : text ≠ "quit") (h : handleEvent p now s text = .done s1) :
    s1.sentFrame = s.sentFrame := by
  have := (handleEvent_effect p now s text).2.2.2 h1 h2
  rw [h] at this
  exact this

/-- A rate that is positive and at most 1000000, with the quotient within `int`,
gives a positive interval. -/
lemma interval_pos_of_rate_le (p : Platform) (q : ℚ) (hq : 0 < q) (hle : q ≤ 1000000)
    (hr : ⌊(1000000 : ℚ) / q⌋ ≤ maxInt) : 0 < toInt p (millionOver (.finite q)) := by
  have hm : millionOver (.finite q) = .finite (1000000 / q) := by
    simp [millionOver, ne_of_gt hq]
  have hge : (1 : ℚ) ≤ 1000000 / q := by
    rw [le_div_iff₀ hq]; linarith
  have hfl1 : 1 ≤ ⌊(1000000 : ℚ) / q⌋ := Int.le_floor.mpr (by exact_mod_cast hge)
  rw [hm, toInt_finite_pos p _ (by positivity) hr]
  omega

/-! ## Lemmas: pacing clock and frame sender -/

lemma countFrom_succ (n : Int) (k : Nat) :
    countFrom n (k + 1) = (n + 1) :: countFrom (n + 1) k := by
  simp only [countFrom, List.range_succ_eq_map, List.map_cons, List.map_map]
  simp only [Nat.cast_zero, add_zero, List.cons.injEq, true_and]
  apply List.map_congr_left
  intro j _
  simp only [Function.comp, Nat.succ_eq_add_one, Nat.cast_add, Nat.cast_one]
  ring

lemma countFrom_length (n : Int) (k : Nat) : (countFrom n k).length = k := by
  simp [countFrom]

lemma length_of_indices (out : List Sent) (n : Int) (k : Nat)
    (h : out.map Sent.index = countFrom n k) : out.length = k := by
  have := congrArg List.length h
  simpa [countFrom_length] using this

lemma tmod_five (x : Int) (hx : 0 ≤ x) : 0 ≤ Int.tmod x 5 ∧ (Int.tmod x 5).toNat < 5 := by
  have h : Int.tmod x 5 = x % 5 := Int.tmod_eq_emod hx (by decide)
  rw [h]
  omega

/-- The two ways an iteration of the sender can complete, and the one way it can
panic. -/
lemma senderStep_cases (s : Session) :
    (¬ s.sentFrame < s.frame ∧ senderStep s = (.done s, [])) ∨
    (s.sentFrame < s.frame ∧ ∃ img,
      0 ≤ Int.tmod (s.sentFrame + 1) 5 ∧
      s.images[(Int.tmod (s.sentFrame + 1) 5).toNat]? = some img ∧
      senderStep s = (.done { s with sentFrame := s.sentFrame + 1 },
        [⟨s.sentFrame + 1, Int.tmod (s.sentFrame + 1) 5, img⟩])) ∨
    (s.sentFrame < s.frame ∧
      senderStep s = (.panicked { s with sentFrame := s.sentFrame + 1 }, [])) := by
  by_cases h : s.sentFrame < s.frame
  · right
    by_cases hi : 0 ≤ Int.tmod (s.sentFrame + 1) 5
    · cases hg : s.images[(Int.tmod (s.sentFrame + 1) 5).toNat]? with
      | none => right; exact ⟨h, by simp [senderStep, h, hi, hg]⟩
      | some img => left; exact ⟨h, img, hi, rfl, by simp [senderStep, h, hi, hg]⟩
    · right; exact ⟨h, by simp [senderStep, h, hi]⟩
  · left; exact ⟨h, by simp [senderStep, h]⟩

/-- With a pool of five and a non-negative `sentFrame` the sender does not panic. -/
lemma senderStep_done_of_pool (s : Session) (himg : s.images.length = 5)
    (h0 : 0 ≤ s.sentFrame) (hlt : s.sentFrame < s.frame) :
    ∃ img, s.images[(Int.tmod (s.sentFrame + 1) 5).toNat]? = some img ∧
      senderStep s = (.done { s with sentFrame := s.sentFrame + 1 },
        [⟨s.sentFrame + 1, Int.tmod (s.sentFrame + 1) 5, img⟩]) := by
  obtain ⟨hi, hb⟩ := tmod_five (s.sentFrame + 1) (by omega)
  have hlen : (Int.tmod (s.sentFrame + 1) 5).toNat < s.images.length := by omega
  refine ⟨s.images[(Int.tmod (s.sentFrame + 1) 5).toNat], List.getElem?_eq_getElem hlen, ?_⟩
  simp [senderStep, hlt, hi, List.getElem?_eq_getElem hlen]

/-- What a step that does not end the epoch does to `sentFrame` and which frame it
writes. -/
lemma step_emission (p : Platform) (s : Session) (st : Step) (h : st.endsEpoch = false) :
    (∃ s1, step p s st = (.done s1, []) ∧ s1.sentFrame = s.sentFrame) ∨
    (∃ s1 e, step p s st = (.done s1, [e]) ∧ s1.sentFrame = s.sentFrame + 1 ∧
      e.index = s.sentFrame + 1) ∨
    (∃ s1, step p s st = (.panicked s1, [])) := by
  cases st with
  | event now text =>
    simp only [Step.endsEpoch, Bool.or_eq_false_iff, decide_eq_false_iff_not] at h
    cases hh : handleEvent p now s text with
    | done s1 =>
      left
      exact ⟨s1, by simp [step, hh], handleEvent_sentFrame p now s s1 text h.1 h.2 hh⟩
    | panicked s1 => right; right; exact ⟨s1, by simp [step, hh]⟩
  | pace now =>
    by_cases hz : s.interval = 0
    · right; right; exact ⟨s, by simp [step, pace, hz]⟩
    · left
      exact ⟨{ s with frame := Int.tdiv (Microseconds (Since now s.start)) s.interval },
        by simp [step, pace, hz], rfl⟩
  | send =>
    rcases senderStep_cases s with ⟨-, h1⟩ | ⟨-, img, -, -, h1⟩ | ⟨-, h1⟩
    · left; exact ⟨s, h1, rfl⟩
    · right; left
      exact ⟨{ s with sentFrame := s.sentFrame + 1 },
        ⟨s.sentFrame + 1, Int.tmod (s.sentFrame + 1) 5, img⟩, h1, rfl, rfl⟩
    · right; right; exact ⟨{ s with sentFrame := s.sentFrame + 1 }, h1⟩

/-- In a run without `"start"` and `"quit"`, the frames written carry the indices
that follow the initial `sentFrame`, in order. -/
lemma run_indices (p : Platform) (steps : List Step) :
    ∀ s : Session, (∀ st ∈ steps, st.endsEpoch = false) →
      (run p s steps).2.map Sent.index = countFrom s.sentFrame (run p s steps).2.length := by
  induction steps with
  | nil => intro s _; simp [run, countFrom]
  | cons st rest ih =>
    intro s hs
    have hst : st.endsEpoch = false := hs st (by simp)
    have hrest : ∀ x ∈ rest, x.endsEpoch = false := fun x hx => hs x (by simp [hx])
    rcases step_emission p s st hst with ⟨s1, h1, h2⟩ | ⟨s1, e, h1, h2, h3⟩ | ⟨s1, h1⟩
    · simp only [run, h1, List.nil_append]
      rw [ih s1 hrest, h2]
    · simp only [run, h1, List.singleton_append, List.map_cons, List.length_cons]
      rw [countFrom_succ, ih s1 hrest, h2, h3]
    · simp [run, h1, countFrom]

/-- What a pacing evaluation or a sender iteration does to the pool and which pool
entry a written frame is. -/
lemma step_pool (p : Platform) (s : Session) (st : Step) (h : st.isEvent = false) :
    (step p s st).1.vars.images = s.images ∧
    ∀ e ∈ (step p s st).2, e.slot = Int.tmod e.index 5 ∧ 0 ≤ e.slot ∧
      s.images[e.slot.toNat]? = some e.payload := by
  cases st with
  | event now text => simp [Step.isEvent] at h
  | pace now =>
    by_cases hz : s.interval = 0 <;> simp [step, pace, hz, Outcome.vars]
  | send =>
    rcases senderStep_cases s with ⟨-, h1⟩ | ⟨-, img, hi, hg, h1⟩ | ⟨-, h1⟩
    · simp [step, h1, Outcome.vars]
    · simp only [step, h1, Outcome.vars, List.mem_singleton, forall_eq, true_and]
      exact ⟨hi, hg⟩
    · simp [step, h1, Outcome.vars]

lemma run_payloads (p : Platform) (steps : List Step) :
    ∀ s : Session, (∀ st ∈ steps, st.isEvent = false) →
      ∀ e ∈ (run p s steps).2, e.slot = Int.tmod e.index 5 ∧ 0 ≤ e.slot ∧
        s.images[e.slot.toNat]? = some e.payload := by
  induction steps with
  | nil => intro s _ e he; simp [run] at he
  | cons st rest ih =>
    intro s hs e he
    have hst : st.isEvent = false := hs st (by simp)
    have hrest : ∀ x ∈ rest, x.isEvent = false := fun x hx => hs x (by simp [hx])
    have hp := step_pool p s st hst
    cases hstep : step p s st with
    | mk o out =>
      rw [hstep] at hp
      cases o with
      | done s1 =>
        simp only [run, hstep, List.mem_append] at he
        rcases he with he | he
        · exact hp.2 e he
        · have := ih s1 hrest e he
          simp only [Outcome.vars] at hp
          rw [hp.1] at this
          exact this
      | panicked s1 =>
        simp only [run, hstep] at he
        exact hp.2 e he

lemma isEvent_endsEpoch (st : Step) (h : st.isEvent = false) : st.endsEpoch = false := by
  cases st <;> simp_all [Step.isEvent, Step.endsEpoch]

/-- A message leaves a pool of five entries a pool of five entries. -/
lemma handleEvent_pool_size (p : Platform) (now : Int) (s : Session) (event : String)
    (h : s.images.length = 5) : (handleEvent p now s event).vars.images.length = 5 := by
  rcases (handleEvent_effect p now s event).2.2.1 with h1 | h1
  · rw [h1]; exact h
  · exact h1

/-- The pool has five entries after initialisation and after every run. -/
lemma run_pool_size (p : Platform) (steps : List Step) :
    (init p).images.length = 5 ∧
    ∀ s : Session, s.images.length = 5 → (run p s steps).1.vars.images.length = 5 := by
  refine ⟨by rw [init_eq]; rfl, ?_⟩
  induction steps with
  | nil => intro s h; simpa [run, Outcome.vars] using h
  | cons st rest ih =>
    intro s h
    have hstep : (step p s st).1.vars.images.length = 5 := by
      cases st with
      | event now text => exact handleEvent_pool_size p now s text h
      | pace now => by_cases hz : s.interval = 0 <;> simpa [step, pace, hz, Outcome.vars] using h
      | send =>
        rcases senderStep_cases s with ⟨-, h1⟩ | ⟨-, img, -, -, h1⟩ | ⟨-, h1⟩ <;>
          simpa [step, h1, Outcome.vars] using h
    cases hs : step p s st with
    | mk o out =>
      rw [hs] at hstep
      cases o with
      | done s1 => simpa [run, hs] using ih s1 (by simpa [Outcome.vars] using hstep)
      | panicked s1 => simpa [run, hs, Outcome.vars] using hstep

lemma floorDiv_eq (E I : Int) (hI : 0 < I) : floorDiv E I = E / I := by
  have h : ((I.toNat : ℤ) : ℚ) = (I : ℚ) := by
    rw [Int.toNat_of_nonneg hI.le]
  have h2 := Rat.floor_intCast_div_natCast E I.toNat
  rw [Int.toNat_of_nonneg hI.le] at h2
  rw [floorDiv, ← h2]
  congr 2
  exact_mod_cast h.symm

lemma Since_nonneg (now start : Int) (h : start ≤ now) : 0 ≤ Since now start := by
  unfold Since maxDuration minDuration
  split_ifs <;> omega

lemma Since_mono (t1 t2 start : Int) (h : t1 ≤ t2) : Since t1 start ≤ Since t2 start := by
  unfold Since maxDuration minDuration
  split_ifs <;> omega

lemma Microseconds_eq (d : Int) (h : 0 ≤ d) : Microseconds d = d / 1000 := by
  unfold Microseconds
  exact Int.tdiv_eq_ediv h (by decide)

/-- Elapsed microseconds are not negative once the start has passed. -/
lemma elapsed_nonneg (now start : Int) (h : start ≤ now) :
    0 ≤ Microseconds (Since now start) := by
  rw [Microseconds_eq _ (Since_nonneg now start h)]
  have := Since_nonneg now start h
  omega

lemma elapsed_mono (t1 t2 start : Int) (h0 : start ≤ t1) (h : t1 ≤ t2) :
    Microseconds (Since t1 start) ≤ Microseconds (Since t2 start) := by
  rw [Microseconds_eq _ (Since_nonneg t1 start h0),
    Microseconds_eq _ (Since_nonneg t2 start (h0.trans h))]
  have := Since_mono t1 t2 start h
  omega

lemma specTarget_eval (I start now : Int) (hI : 0 < I) :
    specTarget I start now = Microseconds (Since now start) / I := by
  rw [specTarget, floorDiv_eq _ _ hI]

lemma specTarget_nonneg (I start now : Int) (hI : 0 < I) (h : start ≤ now) :
    0 ≤ specTarget I start now := by
  rw [specTarget_eval _ _ _ hI]
  exact Int.ediv_nonneg (elapsed_nonneg now start h) hI.le

lemma specTarget_mono (I start t1 t2 : Int) (hI : 0 < I) (h0 : start ≤ t1) (h : t1 ≤ t2) :
    specTarget I start t1 ≤ specTarget I start t2 := by
  rw [specTarget_eval _ _ _ hI, specTarget_eval _ _ _ hI]
  exact Int.ediv_le_ediv hI (elapsed_mono t1 t2 start h0 h)

/-- With a positive interval the pacing clock stores the floor of elapsed / interval. -/
lemma pace_floor (now : Int) (s : Session) (hI : 0 < s.interval) (h : s.start ≤ now) :
    pace now s = .done { s with frame := specTarget s.interval s.start now } := by
  have hne : s.interval ≠ 0 := ne_of_gt hI
  rw [specTarget_eval _ _ _ hI, ← Int.tdiv_eq_ediv (elapsed_nonneg now s.start h) hI.le]
  simp [pace, hne]

/-- The catch-up loop, given enough fuel, stops with `sentFrame = frame` after writing
the frames in between, each once and in order. -/
lemma catchUp_spec : ∀ (fuel : Nat) (s : Session), s.images.length = 5 → 0 ≤ s.sentFrame →
    s.sentFrame ≤ s.frame → (s.frame - s.sentFrame).toNat ≤ fuel →
    (catchUp fuel s).1 = .done { s with sentFrame := s.frame } ∧
    (catchUp fuel s).2.map Sent.index =
      countFrom s.sentFrame (s.frame - s.sentFrame).toNat := by
  intro fuel
  induction fuel with
  | zero =>
    intro s _ _ hle hf
    have he : s.frame = s.sentFrame := by omega
    cases s
    simp only at he
    simp [catchUp, he, countFrom]
  | succ fuel ih =>
    intro s hpool h0 hle hf
    by_cases hlt : s.sentFrame < s.frame
    · obtain ⟨img, -, hstep⟩ := senderStep_done_of_pool s hpool h0 hlt
      have hih := ih { s with sentFrame := s.sentFrame + 1 } hpool (by simp; omega)
        (by simp; omega) (by simp; omega)
      have hk : (s.frame - s.sentFrame).toNat = (s.frame - (s.sentFrame + 1)).toNat + 1 := by
        omega
      simp only [catchUp, hlt, if_true, hstep]
      refine ⟨hih.1, ?_⟩
      rw [hk, countFrom_succ]
      simp only [List.singleton_append, List.map_cons]
      rw [hih.2]
    · have he : s.frame = s.sentFrame := by omega
      cases s
      simp only at he hlt
      simp [catchUp, hlt, he, countFrom]

/-- One poll of the sender: the pacing clock is evaluated at `now` and the sender
catches up. -/
lemma poll_spec (now : Int) (fuel : Nat) (s : Session) (hI : 0 < s.interval)
    (hpool : s.images.length = 5) (ht : s.start ≤ now) (h0 : 0 ≤ s.sentFrame)
    (hle : s.sentFrame ≤ specTarget s.interval s.start now)
    (hf : (specTarget s.interval s.start now - s.sentFrame).toNat ≤ fuel) :
    ∃ a b out, pace now s = .done a ∧ catchUp fuel a = (.done b, out) ∧
      b = { s with
        frame := specTarget s.interval s.start now
        sentFrame := specTarget s.interval s.start now } ∧
      out.map Sent.index = countFrom s.sentFrame
        (specTarget s.interval s.start now - s.sentFrame).toNat := by
  have h := catchUp_spec fuel
    { s with frame := specTarget s.interval s.start now } hpool h0 hle hf
  refine ⟨_, _, _, pace_floor now s hI ht, Prod.ext h.1 rfl, rfl, h.2⟩

/-- A `"start"` at `t0` followed by a poll at `t1` and a poll at `t2`. -/
lemma two_polls (p : Platform) (s : Session) (t0 t1 t2 : Int)
    (fuel1 fuel2 : Nat) (hI : 0 < s.interval) (hpool : s.images.length = 5)
    (h01 : t0 ≤ t1) (h12 : t1 ≤ t2)
    (hf1 : specTarget s.interval t0 t1 ≤ fuel1)
    (hf2 : specTarget s.interval t0 t2 - specTarget s.interval t0 t1 ≤ fuel2) :
    ∃ s0 a b c d out1 out2,
      handleEvent p t0 s "start" = .done s0 ∧
      pace t1 s0 = .done a ∧ catchUp fuel1 a = (.done b, out1) ∧
      pace t2 b = .done c ∧ catchUp fuel2 c = (.done d, out2) ∧
      ¬ b.sentFrame < b.frame ∧ ¬ d.sentFrame < d.frame ∧
      b.sentFrame = specTarget s.interval t0 t1 ∧
      d.sentFrame = specTarget s.interval t0 t2 ∧
      out1.map Sent.index = countFrom 0 (specTarget s.interval t0 t1).toNat ∧
      out2.map Sent.index = countFrom (specTarget s.interval t0 t1)
        (specTarget s.interval t0 t2 - specTarget s.interval t0 t1).toNat ∧
      (out1.length : Int) = specTarget s.interval t0 t1 ∧
      (out2.length : Int) = specTarget s.interval t0 t2 - specTarget s.interval t0 t1 ∧
      ((out1 ++ out2).length : Int) = specTarget s.interval t0 t2 := by
  have hn1 : 0 ≤ specTarget s.interval t0 t1 := specTarget_nonneg _ _ _ hI h01
  have hn12 : specTarget s.interval t0 t1 ≤ specTarget s.interval t0 t2 :=
    specTarget_mono _ _ _ _ hI h01 h12
  obtain ⟨a, b, out1, ha, hb, hbeq, hout1⟩ :=
    poll_spec t1 fuel1 { s with openSocket := true, start := t0, sentFrame := 0 } hI hpool h01
      (le_refl 0) hn1 (by dsimp only; omega)
  dsimp only at hbeq hout1
  subst hbeq
  obtain ⟨c, d, out2, hc, hd, hdeq, hout2⟩ :=
    poll_spec t2 fuel2
      { s with
        openSocket := true
        start := t0
        frame := specTarget s.interval t0 t1
        sentFrame := specTarget s.interval t0 t1 }
      hI hpool (h01.trans h12) hn1 hn12 (by dsimp only; omega)
  dsimp only at hdeq hout2
  subst hdeq
  simp only [sub_zero] at hout1
  have hl1 := length_of_indices _ _ _ hout1
  have hl2 := length_of_indices _ _ _ hout2
  refine ⟨_, a, _, c, _, out1, out2, start_done p t0 s, ha, hb, hc, hd,
    lt_irrefl _, lt_irrefl _, rfl, rfl, hout1, hout2, ?_, ?_, ?_⟩
  · rw [hl1]; exact Int.toNat_of_nonneg hn1
  · rw [hl2]; exact Int.toNat_of_nonneg (by omega)
  · rw [List.length_append, hl1, hl2]
    push_cast
    omega

/-! ## Idle session -/

/-- C1, failing inputs: with `openSocket = false` the sender still writes frames.
Before any `"start"`, one evaluation of the pacing clock (here at an instant of the
year 2025, counted from the zero `Time`) lets the next sender iteration write frame 1;
after a `"start"` and a `"quit"` the same happens one second later. -/
theorem idle_session_sends (p : Platform) :
    (init p).openSocket = false ∧
    (run p (init p) [.pace 63900000000000000000, .send]).1.vars.openSocket = false ∧
    (run p (init p) [.pace 63900000000000000000, .send]).2 = [⟨1, 1, ⟨1024, 1024, 1048576, some 1⟩⟩] ∧
    (run p (init p) [.event 1000000000 "start", .event 2000000000 "quit",
      .pace 3000000000, .send]).1.vars.openSocket = false ∧
    (run p (init p) [.event 1000000000 "start", .event 2000000000 "quit",
      .pace 3000000000, .send]).2 = [⟨1, 1, ⟨1024, 1024, 1048576, some 1⟩⟩] := by
  rw [init_eq]
  refine ⟨rfl, rfl, rfl, ?_, ?_⟩
  · simp only [run, step, start_done, quit_done]
    rfl
  · simp only [run, step, start_done, quit_done]
    rfl

/-! ## Catch-up -/

/-- C2: with a positive interval `I` and a pool of five, after a `"start"` at `t0` a
poll at `t1 ≥ t0` (pacing clock evaluated, sender run until `sentFrame` is no longer
below `frame`) terminates having written exactly the frames 1, ..., floor(E1 / I),
and a later poll at `t2 ≥ t1` terminates having written exactly the frames
floor(E1 / I) + 1, ..., floor(E2 / I): the total since the start is floor(E2 / I) and
the second poll writes floor(E2 / I) minus the number already written.  `E1` and `E2`
are the elapsed microseconds at the two polls, and any fuel that covers the number of
frames to write gives this result. -/
theorem catch_up_sends_floor (p : Platform) (s : Session) (t0 t1 t2 : Int)
    (fuel1 fuel2 : Nat) (hI : 0 < s.interval) (hpool : s.images.length = 5)
    (h01 : t0 ≤ t1) (h12 : t1 ≤ t2)
    (hf1 : specTarget s.interval t0 t1 ≤ fuel1)
    (hf2 : specTarget s.interval t0 t2 - specTarget s.interval t0 t1 ≤ fuel2) :
    ∃ s0 a b c d out1 out2,
      handleEvent p t0 s "start" = .done s0 ∧
      pace t1 s0 = .done a ∧ catchUp fuel1 a = (.done b, out1) ∧
      pace t2 b = .done c ∧ catchUp fuel2 c = (.done d, out2) ∧
      ¬ b.sentFrame < b.frame ∧ ¬ d.sentFrame < d.frame ∧
      b.sentFrame = specTarget s.interval t0 t1 ∧
      d.sentFrame = specTarget s.interval t0 t2 ∧
      out1.map Sent.index = countFrom 0 (specTarget s.interval t0 t1).toNat ∧
      out2.map Sent.index = countFrom (specTarget s.interval t0 t1)
        (specTarget s.interval t0 t2 - specTarget s.interval t0 t1).toNat ∧
      (out1.length : Int) = specTarget s.interval t0 t1 ∧
      (out2.length : Int) = specTarget s.interval t0 t2 - specTarget s.interval t0 t1 ∧
      ((out1 ++ out2).length : Int) = specTarget s.interval t0 t2 :=
  two_polls p s t0 t1 t2 fuel1 fuel2 hI hpool h01 h12 hf1 hf2

/-- C2, witness: the default session started at 0 and polled at 50 ms and 100 ms. -/
theorem catch_up_sends_floor_witness :
    ∃ b d out1 out2,
      catchUp 3 (pace 50000000 (handleEvent samplePlatform 0 (init samplePlatform)
        "start").vars).vars = (.done b, out1) ∧
      catchUp 3 (pace 100000000 b).vars = (.done d, out2) ∧
      out1.map Sent.index = [1, 2, 3] ∧ out2.map Sent.index = [4, 5, 6] ∧
      d.sentFrame = 6 := by
  have hI : (init samplePlatform).interval = 16666 := by rw [init_eq]
  have h1 : specTarget 16666 0 50000000 = 3 := by
    rw [specTarget_eval _ _ _ (by decide)]; decide
  have h2 : specTarget 16666 0 100000000 = 6 := by
    rw [specTarget_eval _ _ _ (by decide)]; decide
  obtain ⟨s0, a, b, c, d, out1, out2, hs0, ha, hb, hc, hd, -, -, -, hd6, ho1, ho2, -⟩ :=
    catch_up_sends_floor samplePlatform (init samplePlatform) 0 50000000 100000000 3 3
      (by rw [hI]; decide) (by rw [init_eq]; rfl) (by decide) (by decide)
      (by rw [hI, h1]; decide) (by rw [hI, h1, h2]; decide)
  simp only [hI, h1, h2] at ho1 ho2 hd6
  refine ⟨b, d, out1, out2, ?_, ?_, ?_, ?_, hd6⟩
  · rw [hs0]; simp only [Outcome.vars]; rw [ha]; exact hb
  · rw [hc]; exact hd
  · rw [ho1]; decide
  · rw [ho2]; decide

/-! ## Send order -/

/-- C3: after a `"start"` is handled, in every interleaving of pacing evaluations,
sender iterations and messages other than `"start"` and `"quit"`, the frames written
carry the indices 1, 2, 3, ... in this order, without a repeat or a gap. -/
theorem epoch_indices_count_up (p : Platform) (t0 : Int) (s : Session) (steps : List Step)
    (hsteps : ∀ st ∈ steps, st.endsEpoch = false) :
    ∃ s0, handleEvent p t0 s "start" = .done s0 ∧
      (run p s0 steps).2.map Sent.index =
        (List.range (run p s0 steps).2.length).map (fun (j : Nat) => (j : Int) + 1) := by
  refine ⟨{ s with openSocket := true, start := t0, sentFrame := 0 }, start_done p t0 s, ?_⟩
  rw [run_indices p steps _ hsteps]
  simp [countFrom, add_comm]

/-- C3, witness: an epoch of the default session with a Resize in the middle. -/
theorem epoch_indices_count_up_witness :
    (∀ st ∈ [Step.send, .pace 40000000, .send, .event 41000000 "640,480,30", .send,
      .pace 99000000, .send, .send], st.endsEpoch = false) ∧
    ∃ s0, handleEvent samplePlatform 5 (init samplePlatform) "start" = .done s0 ∧
      (run samplePlatform s0 [.send, .pace 40000000, .send, .event 41000000 "640,480,30",
        .send, .pace 99000000, .send, .send]).2.map Sent.index =
      (List.range (run samplePlatform s0 [.send, .pace 40000000, .send,
        .event 41000000 "640,480,30", .send, .pace 99000000, .send, .send]).2.length).map
          (fun (j : Nat) => (j : Int) + 1) :=
  ⟨by decide, epoch_indices_count_up samplePlatform 5 (init samplePlatform) _ (by decide)⟩

/-! ## Pool cycling -/

/-- C4, counterexample: on no platform is the first frame written after a `"start"`
the payload of pool entry `(1 - 1) mod 5 = 0`; the sender increments `sentFrame`
before it indexes the pool, so the first frame is entry 1. -/
theorem first_frame_is_entry_one :
    ¬ ∃ p : Platform, ∃ e : Sent,
      (run p (handleEvent p 0 (init p) "start").vars [.pace 1000000000, .send]).2[0]? = some e ∧
      (init p).images[(1 - 1) % 5]? = some e.payload := by
  rintro ⟨p, e, h1, h2⟩
  rw [start_done, init_eq] at h1
  rw [init_eq] at h2
  have hrun : (run p
      { fps := F64.finite 60, interval := 16666, width := 1024, height := 1024, frame := 0,
        sentFrame := 0,
        images := [⟨1024, 1024, 1048576, some 0⟩, ⟨1024, 1024, 1048576, some 1⟩,
          ⟨1024, 1024, 1048576, some 2⟩, ⟨1024, 1024, 1048576, some 3⟩,
          ⟨1024, 1024, 1048576, some 4⟩],
        openSocket := true, start := 0, drawn := 5 }
      [.pace 1000000000, .send]).2 = [⟨1, 1, ⟨1024, 1024, 1048576, some 1⟩⟩] := rfl
  simp only [Outcome.vars] at h1
  rw [hrun] at h1
  simp at h1 h2
  rw [← h1] at h2
  simp at h2

/-- C4, amended: in an epoch of pacing evaluations and sender iterations that follows
a `"start"`, the `k`-th frame written (counting from 1) has index `k` and is the
payload stored at pool entry `k mod 5`: entry 1 first, entry 0 fifth. -/
theorem kth_frame_pool_entry (p : Platform) (t0 : Int) (s : Session) (steps : List Step)
    (hsteps : ∀ st ∈ steps, st.isEvent = false) (k : Nat) (e : Sent) (hk : 1 ≤ k)
    (he : (run p (handleEvent p t0 s "start").vars steps).2[k - 1]? = some e) :
    e.index = k ∧ e.slot = (k : Int) % 5 ∧ s.images[k % 5]? = some e.payload := by
  rw [start_done] at he
  simp only [Outcome.vars] at he
  have hidx := run_indices p steps { s with openSocket := true, start := t0, sentFrame := 0 }
    (fun st hst => isEvent_endsEpoch st (hsteps st hst))
  have hmem : e ∈ (run p { s with openSocket := true, start := t0, sentFrame := 0 } steps).2 :=
    List.getElem?_mem he
  obtain ⟨hslot, -, hpay⟩ := run_payloads p steps _ hsteps e hmem
  have h1 := congrArg (fun l => l[k - 1]?) hidx
  simp only [List.getElem?_map, he, Option.map_some', countFrom] at h1
  have hindex : e.index = k := by
    rcases hr : (List.range (run p { s with openSocket := true, start := t0, sentFrame := 0 }
        steps).2.length)[k - 1]? with _ | j
    · rw [hr] at h1; simp at h1
    · rw [hr] at h1
      have hj : j = k - 1 := by
        rw [List.getElem?_range] at hr
        · simpa using hr.symm
        · by_contra hcon
          rw [List.getElem?_eq_none (by simpa using hcon)] at hr
          simp at hr
      simp only [Option.map_some', Option.some.injEq] at h1
      rw [h1, hj]
      omega
  have hslot2 : e.slot = (k : Int) % 5 := by
    rw [hslot, hindex]
    exact Int.tmod_eq_emod (by omega) (by decide)
  refine ⟨hindex, hslot2, ?_⟩
  have hnat : e.slot.toNat = k % 5 := by
    rw [hslot2]; omega
  rw [← hnat]
  exact hpay

/-- C4, witness: the seventh frame of the default session is pool entry 2. -/
theorem kth_frame_pool_entry_witness :
    (⟨7, 2, ⟨1024, 1024, 1048576, some 2⟩⟩ : Sent).index = (7 : Nat) ∧
    (⟨7, 2, ⟨1024, 1024, 1048576, some 2⟩⟩ : Sent).slot = ((7 : Nat) : Int) % 5 ∧
    (init samplePlatform).images[7 % 5]? = some (⟨7, 2, ⟨1024, 1024, 1048576, some 2⟩⟩ : Sent).payload :=
  kth_frame_pool_entry samplePlatform 0 (init samplePlatform)
    [.pace 200000000, .send, .send, .send, .send, .send, .send, .send, .send]
    (by decide) 7 ⟨7, 2, ⟨1024, 1024, 1048576, some 2⟩⟩ (by decide)
    (by rw [start_done, init_eq]; rfl)

/-! ## Control messages -/

/-- C6, counterexample: `"99999999999,99999999999,30"` has two decimal non-negative
integers and a positive rate, yet on no platform is it handled to completion:
`createImage` panics on the area, which does not fit `int`, so the interval is not
set to 33333 and the pool is not replaced.  And `"9223372036854775808,1,30"` stores
on no platform the width 9223372036854775808, which is not an `int`. -/
theorem huge_geometry_panics :
    Split "99999999999,99999999999,30" = ["99999999999", "99999999999", "30"] ∧
    Atoi "99999999999" = (99999999999, none) ∧
    (¬ ∃ p : Platform, ∃ s1,
      handleEvent p 0 (init p) "99999999999,99999999999,30" = .done s1) ∧
    (¬ ∃ p : Platform,
      (handleEvent p 0 (init p) "99999999999,99999999999,30").vars.interval = 33333) ∧
    (¬ ∃ p : Platform,
      (handleEvent p 0 (init p) "99999999999,99999999999,30").vars.images ≠ (init p).images) ∧
    (¬ ∃ p : Platform,
      (handleEvent p 0 (init p) "9223372036854775808,1,30").vars.width =
        9223372036854775808) := by
  have hA : Atoi "99999999999" = (99999999999, none) := by decide
  have hpanic : ∀ p : Platform, handleEvent p 0 (init p) "99999999999,99999999999,30" =
      .panicked { init p with
        width := (Atoi "99999999999").1
        height := (Atoi "99999999999").1
        fps := (ParseFloat p "30").1 } := by
    intro p
    refine handleEvent_three_panic p 0 (init p) _ "99999999999" "99999999999" "30" []
      (by decide) ?_
    rw [hA]
    exact rasterFits_of_overflow p 99999999999 99999999999 (by norm_num)
      (by norm_num [maxInt]) (by norm_num) (by norm_num [maxInt]) (by norm_num [maxInt])
  refine ⟨by decide, hA, ?_, ?_, ?_, ?_⟩
  · rintro ⟨p, s1, h⟩
    rw [hpanic p] at h
    exact Outcome.noConfusion h
  · rintro ⟨p, h⟩
    rw [hpanic p, init_eq] at h
    simp [Outcome.vars] at h
  · rintro ⟨p, h⟩
    rw [hpanic p] at h
    exact h rfl
  · rintro ⟨p, h⟩
    have hv := handleEvent_three_vars p 0 (init p) "9223372036854775808,1,30" "9223372036854775808" "1" "30" []
      (by decide)
    rw [hv.1] at h
    revert h
    decide

/-- C6, amended: a message `"W,H,FPS"` whose first two fields `strconv.Atoi` parses
without error to non-negative `int`s `w` and `h`, for which `createImage` returns
(the area `w * h` fits `int` and the machine holds the raster), and whose third field
`strconv.ParseFloat` parses to a positive `q` with the quotient `1000000 / q` within
`int`, sets `width = w`, `height = h`, `fps = q` and `interval = ⌊1000000 / q⌋`,
replaces the pool by five images built for the new geometry during the handling,
and leaves `openSocket`, `start` and `sentFrame` as they were. -/
theorem resize_success (p : Platform) (now : Int) (s : Session) (event W H F : String)
    (w h : Int) (q : ℚ) (hs : Split event = [W, H, F])
    (hW : Atoi W = (w, none)) (hH : Atoi H = (h, none)) (hw : 0 ≤ w) (hh : 0 ≤ h)
    (harea : w * h ≤ maxInt) (hlim : w * h ≤ p.rasterLimit)
    (hF : ParseFloat p F = (.finite q, none)) (hq : 0 < q)
    (hr : ⌊(1000000 : ℚ) / q⌋ ≤ maxInt) :
    ∃ s1, handleEvent p now s event = .done s1 ∧
      s1.width = w ∧ s1.height = h ∧ s1.fps = .finite q ∧
      s1.interval = ⌊(1000000 : ℚ) / q⌋ ∧
      s1.images = poolOf w h s.drawn ∧ s1.images.length = 5 ∧
      (∀ img ∈ s1.images, img.width = w % 4294967296 ∧ img.height = h % 4294967296 ∧
        (0 < w → 0 < h → ∃ k, img.noise = some k ∧ s.drawn ≤ k)) ∧
      s1.openSocket = s.openSocket ∧ s1.start = s.start ∧ s1.sentFrame = s.sentFrame := by
  have hint : toInt p (millionOver (.finite q)) = ⌊(1000000 : ℚ) / q⌋ := by
    have hm : millionOver (.finite q) = .finite (1000000 / q) := by
      simp [millionOver, ne_of_gt hq]
    rw [hm]
    exact toInt_finite_pos p _ (by positivity) hr
  have hw1 : w ≤ maxInt := by
    have := (Atoi_range W).2
    rw [hW] at this
    exact this
  have hh1 : h ≤ maxInt := by
    have := (Atoi_range H).2
    rw [hH] at this
    exact this
  have hfit : rasterFits p (Atoi W).1 (Atoi H).1 = true := by
    rw [hW, hH]
    exact rasterFits_of_nonneg p w h hw hw1 hh hh1 harea hlim
  refine ⟨_, handleEvent_three p now s event W H F [] hs hfit, ?_, ?_, ?_, ?_, ?_, ?_, ?_,
    rfl, rfl, rfl⟩
  · simp [hW]
  · simp [hH]
  · simp [hF]
  · simp [hF, hint]
  · simp [hW, hH]
  · simp [poolOf_length]
  · intro img himg
    simp only [hW, hH, poolOf] at himg
    by_cases hpos : 0 < w ∧ 0 < h
    · rw [if_pos hpos] at himg
      simp only [List.mem_cons, List.mem_singleton, List.not_mem_nil, or_false] at himg
      rcases himg with e | e | e | e | e <;>
        simp [e, encodeGray, rectSpan_of_nonneg w hw hw1, rectSpan_of_nonneg h hh hh1]
    · rw [if_neg hpos] at himg
      have e := List.eq_of_mem_replicate himg
      refine ⟨?_, ?_, fun h1 h2 => absurd ⟨h1, h2⟩ hpos⟩
      · simp [e, encodeGray, rectSpan_of_nonneg w hw hw1]
      · simp [e, encodeGray, rectSpan_of_nonneg h hh hh1]

/-- C6, witness: `"640,480,30"` on the default session gives interval 33333. -/
theorem resize_success_witness :
    ∃ s1, handleEvent samplePlatform 0 (init samplePlatform) "640,480,30" = .done s1 ∧
      s1.width = 640 ∧ s1.height = 480 ∧ s1.fps = .finite 30 ∧ s1.interval = 33333 ∧
      s1.images.length = 5 := by
  have hfl : ⌊(1000000 : ℚ) / 30⌋ = 33333 := by
    rw [Int.floor_eq_iff]; norm_num
  obtain ⟨s1, h1, h2, h3, h4, h5, -, h6, -⟩ :=
    resize_success samplePlatform 0 (init samplePlatform) "640,480,30" "640" "480" "30"
      640 480 30 (by decide) (by decide) (by decide) (by norm_num) (by norm_num)
      (by norm_num [maxInt]) (by norm_num [samplePlatform])
      (by simp [ParseFloat, splitSign, digitsValue]) (by norm_num)
      (by rw [hfl]; decide)
  exact ⟨s1, h1, h2, h3, h4, by rw [h5, hfl], h6⟩

/-- C7, counterexample: `"1,2,3,4"` has four fields and is neither `"start"` nor
`"quit"`, yet on no platform does handling it leave the session as it was: it is
applied as a Resize to 1 x 2.  The two-field `"a,b"` is on no platform handled to
completion: the read of the third field panics. -/
theorem four_fields_resize :
    Split "1,2,3,4" = ["1", "2", "3", "4"] ∧
    (¬ ∃ p : Platform,
      (handleEvent p 0 (init p) "1,2,3,4").vars.width = (init p).width) ∧
    Split "a,b" = ["a", "b"] ∧
    (¬ ∃ p : Platform, ∃ s1, handleEvent p 0 (init p) "a,b" = .done s1) := by
  refine ⟨by decide, ?_, by decide, ?_⟩
  · rintro ⟨p, h⟩
    have hv := handleEvent_three_vars p 0 (init p) "1,2,3,4" "1" "2" "3" ["4"] (by decide)
    rw [hv.1, init_eq] at h
    revert h
    decide
  · rintro ⟨p, s1, h⟩
    revert h
    simp [handleEvent, containsComma, Split, splitComma]

/-- C7, amended: a message that contains no comma and is neither `"start"` nor
`"quit"` is handled without a panic and leaves every variable, the pool included,
as it was. -/
theorem unrecognised_is_noop (p : Platform) (now : Int) (s : Session) (event : String)
    (hc : containsComma event = false) (h1 : event ≠ "start") (h2 : event ≠ "quit") :
    handleEvent p now s event = .done s := by
  simp [handleEvent, hc, h1, h2]

/-- C7, witness: `"pause"` on the default session. -/
theorem unrecognised_is_noop_witness :
    handleEvent samplePlatform 3 (init samplePlatform) "pause" = .done (init samplePlatform) :=
  unrecognised_is_noop samplePlatform 3 (init samplePlatform) "pause" (by decide) (by decide)
    (by decide)

/-! ## Ordering of the two counters -/

/-- C8, counterexample: a run made of a `"start"`, a pacing evaluation 100 ms later,
six sender iterations, a Resize to 30 frames per second and one more pacing
evaluation ends, on no platform, with `sentFrame ≤ frame`: `sentFrame` is 6 and
`frame` is 3. -/
theorem rate_drop_breaks_order :
    ¬ ∃ p : Platform,
      (run p (init p) [.event 0 "start", .pace 100000000, .send, .send, .send, .send, .send,
        .send, .event 100000001 "1024,1024,30", .pace 100000002]).1.vars.sentFrame ≤
      (run p (init p) [.event 0 "start", .pace 100000000, .send, .send, .send, .send, .send,
        .send, .event 100000001 "1024,1024,30", .pace 100000002]).1.vars.frame := by
  rintro ⟨p, h⟩
  rw [init_eq] at h
  simp only [run, step, start_done, resize_thirty] at h
  revert h
  decide

/-- C8, amended: `sentFrame ≤ frame` holds after initialisation and is kept by every
sender iteration, by the handling of every message when `frame` is not negative, and
by a pacing evaluation at `t2` when `frame` is what the clock gives at an instant `t`
between `start` and `t2` under the current positive interval.  A pacing evaluation
in general does not keep it. -/
theorem order_kept_except_by_pacing (p : Platform) (now t t2 : Int) (s : Session)
    (event : String) (hinv : s.sentFrame ≤ s.frame) :
    (init p).sentFrame ≤ (init p).frame ∧
    (senderStep s).1.vars.sentFrame ≤ (senderStep s).1.vars.frame ∧
    (0 ≤ s.frame →
      (handleEvent p now s event).vars.sentFrame ≤ (handleEvent p now s event).vars.frame) ∧
    (0 < s.interval → s.start ≤ t → t ≤ t2 → s.frame = (pace t s).vars.frame →
      (pace t2 s).vars.sentFrame ≤ (pace t2 s).vars.frame) := by
  refine ⟨by rw [init_eq], ?_, ?_, ?_⟩
  · rcases senderStep_cases s with ⟨-, h1⟩ | ⟨hlt, img, -, -, h1⟩ | ⟨hlt, h1⟩
    · rw [h1]; exact hinv
    · rw [h1]; simp only [Outcome.vars]; omega
    · rw [h1]; simp only [Outcome.vars]; omega
  · intro h0
    obtain ⟨hf, hs | hs⟩ := handleEvent_counters p now s event
    · rw [hf, hs]; exact hinv
    · rw [hf, hs]; exact h0
  · intro hI hst htt hframe
    rw [pace_floor t s hI hst] at hframe
    rw [pace_floor t2 s hI (hst.trans htt)]
    simp only [Outcome.vars] at hframe ⊢
    have := specTarget_mono s.interval s.start t t2 hI hst htt
    omega

/-- C8, witness: the default session after a pacing evaluation at 50 ms: a sender
iteration, a `"quit"` and a pacing evaluation at 90 ms keep the order. -/
theorem order_kept_except_by_pacing_witness :
    (senderStep (pace 50000000 (init samplePlatform)).vars).1.vars.sentFrame ≤
      (senderStep (pace 50000000 (init samplePlatform)).vars).1.vars.frame ∧
    (handleEvent samplePlatform 0 (pace 50000000 (init samplePlatform)).vars
        "quit").vars.sentFrame ≤
      (handleEvent samplePlatform 0 (pace 50000000 (init samplePlatform)).vars
        "quit").vars.frame ∧
    (pace 90000000 (pace 50000000 (init samplePlatform)).vars).vars.sentFrame ≤
      (pace 90000000 (pace 50000000 (init samplePlatform)).vars).vars.frame := by
  have hs : (pace 50000000 (init samplePlatform)).vars.sentFrame ≤
      (pace 50000000 (init samplePlatform)).vars.frame := by
    rw [init_eq]; decide
  have h := order_kept_except_by_pacing samplePlatform 0 50000000 90000000
    (pace 50000000 (init samplePlatform)).vars "quit" hs
  refine ⟨h.2.1, h.2.2.1 ?_, h.2.2.2 ?_ ?_ ?_ ?_⟩
  · rw [init_eq]; decide
  · rw [init_eq]; decide
  · rw [init_eq]; decide
  · decide
  · rw [init_eq]; decide

/-! ## The 60 frames per second scenario -/

/-- C9, counterexample: on no platform does the default session, started at t = 0
and polled to quiescence at t = 50000 microseconds, stand at two frames written, and
on no platform does it stand at five after the second poll at t = 100000. -/
theorem sixty_fps_not_two :
    (¬ ∃ p : Platform,
      (catchUp 10 (pace 50000000 (handleEvent p 0 (init p) "start").vars).vars).1.vars.sentFrame
        = 2) ∧
    (¬ ∃ p : Platform,
      (catchUp 10 (pace 100000000 (catchUp 10 (pace 50000000
        (handleEvent p 0 (init p) "start").vars).vars).1.vars).vars).1.vars.sentFrame = 5) := by
  constructor
  · rintro ⟨p, h⟩
    rw [init_eq, start_done] at h
    revert h
    decide
  · rintro ⟨p, h⟩
    rw [init_eq, start_done] at h
    revert h
    decide

/-- C9, amended: the interval at 60 frames per second is `int(1000000 / 60) = 16666`
microseconds, by default and after a Resize with FPS 60.  With that interval and a
`"start"` at `t0`, a poll 50000 microseconds later writes exactly the frames 1, 2, 3,
and a poll 100000 microseconds after the start writes exactly the frames 4, 5, 6: the
cumulative `sentFrame` is 6, three more than at the first poll. -/
theorem sixty_fps_scenario (p : Platform) (s : Session) (t0 : Int)
    (hI : s.interval = 16666) (hpool : s.images.length = 5) :
    (init p).interval = 16666 ∧
    (∀ now s1, (handleEvent p now s1 "1024,1024,60").vars.interval = 16666) ∧
    ∃ s0 a b c d out1 out2,
      handleEvent p t0 s "start" = .done s0 ∧
      pace (t0 + 50000000) s0 = .done a ∧ catchUp 3 a = (.done b, out1) ∧
      out1.map Sent.index = [1, 2, 3] ∧ b.sentFrame = 3 ∧ ¬ b.sentFrame < b.frame ∧
      pace (t0 + 100000000) b = .done c ∧ catchUp 3 c = (.done d, out2) ∧
      out2.map Sent.index = [4, 5, 6] ∧ d.sentFrame = 6 ∧ ¬ d.sentFrame < d.frame := by
  have hE1 : Since (t0 + 50000000) t0 = 50000000 := by
    simp [Since, maxDuration, minDuration]
  have hE2 : Since (t0 + 100000000) t0 = 100000000 := by
    simp [Since, maxDuration, minDuration]
  have h1 : specTarget s.interval t0 (t0 + 50000000) = 3 := by
    rw [hI, specTarget_eval _ _ _ (by decide), hE1]; decide
  have h2 : specTarget s.interval t0 (t0 + 100000000) = 6 := by
    rw [hI, specTarget_eval _ _ _ (by decide), hE2]; decide
  obtain ⟨s0, a, b, c, d, out1, out2, hs0, ha, hb, hc, hd, hq1, hq2, hb3, hd6, ho1, ho2, -⟩ :=
    two_polls p s t0 (t0 + 50000000) (t0 + 100000000) 3 3
      (by rw [hI]; decide) hpool (by omega) (by omega)
      (by rw [h1]; decide) (by rw [h1, h2]; decide)
  rw [h1] at ho1 ho2 hb3
  rw [h2] at ho2 hd6
  refine ⟨by rw [init_eq], resize_sixty p, s0, a, b, c, d, out1, out2, hs0, ha, hb, ?_, hb3,
    hq1, hc, hd, ?_, hd6, hq2⟩
  · rw [ho1]; decide
  · rw [ho2]; decide

/-- C9, witness: the default session started at instant 7. -/
theorem sixty_fps_scenario_witness :
    ∃ b d out1 out2,
      catchUp 3 (pace (7 + 50000000) (handleEvent samplePlatform 7 (init samplePlatform)
        "start").vars).vars = (.done b, out1) ∧
      catchUp 3 (pace (7 + 100000000) b).vars = (.done d, out2) ∧
      out1.map Sent.index = [1, 2, 3] ∧ out2.map Sent.index = [4, 5, 6] := by
  obtain ⟨-, -, s0, a, b, c, d, out1, out2, hs0, ha, hb, ho1, -, -, hc, hd, ho2, -⟩ :=
    sixty_fps_scenario samplePlatform (init samplePlatform) 7 (by rw [init_eq])
      (by rw [init_eq]; rfl)
  refine ⟨b, d, out1, out2, ?_, ?_, ho1, ho2⟩
  · rw [hs0]; simp only [Outcome.vars]; rw [ha]; exact hb
  · rw [hc]; exact hd

/-! ## The pacing division -/

/-- C10, failing input: the Resize `"1024,1024,2000000"` has a positive FPS field,
yet it leaves `interval = 0`, and every later evaluation of the pacing clock panics
on the division. -/
theorem high_fps_zero_interval (p : Platform) (now : Int) (s : Session) :
    ParseFloat p "2000000" = (.finite 2000000, none) ∧
    ∃ s1, handleEvent p now s "1024,1024,2000000" = .done s1 ∧ s1.interval = 0 ∧
      ∀ t, pace t s1 = .panicked s1 := by
  have hF : ParseFloat p "2000000" = (.finite 2000000, none) := by
    simp [ParseFloat, splitSign, digitsValue]
  have hint : toInt p (millionOver (.finite 2000000)) = 0 := by
    have hm : millionOver (.finite 2000000) = .finite (1 / 2) := by
      simp only [millionOver]; norm_num
    have hfl : ⌊(1 / 2 : ℚ)⌋ = 0 := by rw [Int.floor_eq_iff]; norm_num
    rw [hm, toInt_finite_pos p _ (by norm_num) (by rw [hfl]; decide), hfl]
  have hA : Atoi "1024" = (1024, none) := by decide
  have hfit : rasterFits p (Atoi "1024").1 (Atoi "1024").1 = true := by
    rw [hA]
    exact rasterFits_small p 1024 1024 (by norm_num) (by norm_num) (by norm_num)
      (by norm_num) (by norm_num)
  refine ⟨hF, _, handleEvent_three p now s _ "1024" "1024" "2000000" [] (by decide) hfit,
    ?_, ?_⟩
  · simp [hF, hint]
  · intro t
    simp [pace, hF, hint]

end StreamBmp
